import Mathlib

/-!
Verification of the species-occurrence resolution and caching subsystem of the
algae dashboard repository.

The embedding below translates, from the TypeScript source:
  * the retry/backoff axios interceptors of the two GBIF client variants
    (services/gbif-occurrences.ts, both variants);
  * the persistent GBIFCache class (lib/gbif-cache.ts);
  * resolveSynonym, matchSpeciesName, fetchTaxonKey, fetchGBIFOccurrences
    (both client variants);
  * processSpecies and the chunked batch loop of MapDataProvider
    (components/map-data-provider.tsx).

JavaScript conventions modelled explicitly:
  * a possibly-undefined value is an Option;
  * string methods trim/toLowerCase/split/includes are re-implemented over
    character lists (jsTrim, jsLower, jsSplit, jsContainsSpace);
  * JS Map objects are association lists with first-match lookup and
    prepend-on-set (alGet/alSet), which matches Map get/set observations;
  * numeric truthiness: null/undefined/0 are falsy (truthyKey);
  * JS numbers appearing as coordinates are modelled as Int, since only
    definedness of a coordinate matters to the properties at stake;
  * the remote API is a deterministic environment (GBIFApi): each endpoint
    function returns the post-retry outcome of fetchGBIFData, either a parsed
    payload or a thrown transport/HTTP error (Except Unit).
Every fetch-layer function also returns the list of network calls it issued
(ApiCall), so that claims about "no network call" are directly statable.
-/

/-! ### JS string primitives -/

def isSpaceChar (c : Char) : Bool :=
  c == ' ' || c == '\t' || c == '\n' || c == '\r'

/-- JS String.prototype.trim (restricted to the whitespace that occurs in this
data set). -/
def jsTrim (s : String) : String :=
  ⟨((s.data.dropWhile isSpaceChar).reverse.dropWhile isSpaceChar).reverse⟩

/-- JS String.prototype.toLowerCase (ASCII, which covers the species names). -/
def jsLower (s : String) : String :=
  ⟨s.data.map Char.toLower⟩

/-- JS s.includes(" "). -/
def jsContainsSpace (s : String) : Bool :=
  s.data.contains ' '

def jsSplitAux : List Char → List Char → List String
  | [], acc => [⟨acc.reverse⟩]
  | c :: rest, acc =>
      if c = ' ' then ⟨acc.reverse⟩ :: jsSplitAux rest []
      else jsSplitAux rest (c :: acc)

/-- JS s.split(" "). -/
def jsSplit (s : String) : List String :=
  jsSplitAux s.data []

def jsJoinSpace : List String → String
  | [] => ""
  | [x] => x
  | x :: rest => x ++ " " ++ jsJoinSpace rest

/-! ### JS Map as an association list -/

def alGet {α β : Type} [DecidableEq α] (l : List (α × β)) (k : α) : Option β :=
  (l.find? (fun p => decide (p.fst = k))).map Prod.snd

def alSet {α β : Type} [DecidableEq α] (l : List (α × β)) (k : α) (v : β) :
    List (α × β) :=
  (k, v) :: l

theorem alGet_nil {α β : Type} [DecidableEq α] (k : α) :
    alGet ([] : List (α × β)) k = none := rfl

theorem alGet_alSet_self {α β : Type} [DecidableEq α]
    (l : List (α × β)) (k : α) (v : β) : alGet (alSet l k v) k = some v := by
  simp [alGet, alSet, List.find?]

theorem alGet_alSet_ne {α β : Type} [DecidableEq α]
    (l : List (α × β)) (k k' : α) (v : β) (h : k' ≠ k) :
    alGet (alSet l k v) k' = alGet l k' := by
  simp [alGet, alSet, List.find?, Ne.symm h]

/-- JS truthiness of a number|null|undefined value: null, undefined and 0 are
falsy. -/
def truthyKey : Option Nat → Bool
  | none => false
  | some k => k != 0

/-- JS a || b on number-valued fields. -/
def jsOrKey (a b : Option Nat) : Option Nat :=
  if truthyKey a then a else b

/-! ### Retry/backoff transport (claim C3)

First client variant (axios interceptor with retry/retryDelay config):

  gbifAxios.interceptors.response.use(undefined, async (error) => {
    const config = error.config
    if (!config || !config.retry) return Promise.reject(error)
    config.retry -= 1
    if (config.retry === 0) return Promise.reject(error)
    const backoff = new Promise(resolve => {
      setTimeout(() => resolve(null), config.retryDelay || 1000) })
    config.retryDelay = (config.retryDelay || 1000) * 2
    await backoff
    return gbifAxios(config)
  })

Second client variant retries exactly once, immediately, and only when the
error message is the literal Network Error.

An execution environment is a function from attempt index to the outcome of
that attempt.  axios rejects the promise for HTTP error statuses as well as
for network errors and timeouts, and the interceptor only sees rejections. -/

inductive RejectKind where
  | httpStatus (code : Nat)
  | networkError
  | timedOut
deriving DecidableEq, Repr

inductive Attempt where
  | success
  | failure (k : RejectKind)
deriving DecidableEq, Repr

deriving instance DecidableEq for Except

structure RunResult where
  outcome : Except RejectKind Unit
  attemptsMade : Nat
  waits : List Nat
deriving DecidableEq, Repr

/-- First-variant request execution: attempt i, with the current values of
config.retry and config.retryDelay. -/
def runAxios1 (attempts : Nat → Attempt) : Nat → Nat → Nat → RunResult
  | i, 0, _ =>
      match attempts i with
      | .success => ⟨.ok (), 1, []⟩
      | .failure k => ⟨.error k, 1, []⟩
  | i, 1, _ =>
      match attempts i with
      | .success => ⟨.ok (), 1, []⟩
      | .failure k => ⟨.error k, 1, []⟩
  | i, r + 2, retryDelay =>
      match attempts i with
      | .success => ⟨.ok (), 1, []⟩
      | .failure _ =>
          let d := if retryDelay = 0 then 1000 else retryDelay
          let rest := runAxios1 attempts (i + 1) (r + 1) (d * 2)
          ⟨rest.outcome, rest.attemptsMade + 1, d :: rest.waits⟩

/-- fetchGBIFData of the first variant configures retry: 3, retryDelay: 1000. -/
def fetchGBIFDataRun (attempts : Nat → Attempt) : RunResult :=
  runAxios1 attempts 0 3 1000

/-- Second-variant interceptor: retry once, immediately, only on Network
Error (the __isRetry flag forbids a second retry). -/
def runAxios2 (attempts : Nat → Attempt) : RunResult :=
  match attempts 0 with
  | .success => ⟨.ok (), 1, []⟩
  | .failure k =>
      if k = RejectKind.networkError then
        match attempts 1 with
        | .success => ⟨.ok (), 2, []⟩
        | .failure k2 => ⟨.error k2, 2, []⟩
      else ⟨.error k, 1, []⟩

/-! ### Wire-format records -/

structure RawMedia where
  type : Option String
  identifier : Option String
  title : Option String
deriving DecidableEq, Repr

/-- One raw record of an occurrence/search page, before any validation; every
field can be absent in the duck-typed JSON. -/
structure RawOccurrence where
  key : Option String
  scientificName : Option String
  decimalLatitude : Option Int
  decimalLongitude : Option Int
  eventDate : Option String
  media : Option (List RawMedia)
deriving DecidableEq, Repr

/-- occurrence/search response; the results field itself may be absent. -/
structure OccPage where
  results : Option (List RawOccurrence)
deriving DecidableEq, Repr

structure GBIFMedia where
  type : String
  identifier : String
  title : Option String
deriving DecidableEq, Repr

/-- The GBIFOccurrence interface of the first client variant (gbif-types):
coordinates are plain numbers after validation. -/
structure GBIFOccurrence where
  key : String
  scientificName : String
  decimalLatitude : Int
  decimalLongitude : Int
  eventDate : Option String
  media : Option (List GBIFMedia)
deriving DecidableEq, Repr

structure GBIFSpeciesMatch where
  usageKey : Option Nat
  scientificName : String
  canonicalName : String
  kingdom : String
  phylum : String
  rank : String
  status : String
  matchType : String
  confidence : Nat
  synonym : Bool
  kingdomKey : Nat
  phylumKey : Nat
deriving DecidableEq, Repr

structure SearchEntry where
  key : Option Nat
  usageKey : Option Nat
deriving DecidableEq, Repr

structure SearchResponse where
  results : Option (List SearchEntry)
deriving DecidableEq, Repr

/-! ### The remote API environment

Each field is one endpoint/parameter-shape used by the code, returning the
post-retry outcome of fetchGBIFData: a payload, or error for a thrown
transport/HTTP failure. -/

structure GBIFApi where
  /-- species/match with name, verbose: true (matchSpeciesName exact step). -/
  matchVerbose : String → Except Unit GBIFSpeciesMatch
  /-- species/match with name, verbose: true, strict: false (fuzzy step). -/
  matchFuzzy : String → Except Unit GBIFSpeciesMatch
  /-- species/match with name only (fetchTaxonKey exact step). -/
  matchPlain : String → Except Unit GBIFSpeciesMatch
  /-- species/search with q, limit: 1, rank: SPECIES (fetchTaxonKey). -/
  speciesSearch : String → Except Unit SearchResponse
  /-- occurrence/search of the first variant: taxonKey, limit, offset,
  hasCoordinate, hasImage (plus constants hasGeospatialIssue: false,
  status: ACCEPTED, and mediaType derived from hasImage). -/
  occSearch : Nat → Nat → Nat → Bool → Bool → Except Unit OccPage
  /-- occurrence/search of the second variant: taxonKey, limit,
  hasCoordinate, hasImage (single unpaged call). -/
  occSearchB : Nat → Nat → Bool → Bool → Except Unit OccPage

/-- The network calls a fetch-layer function issues, in order. -/
inductive ApiCall where
  | matchVerbose (name : String)
  | matchFuzzy (name : String)
  | matchPlain (name : String)
  | speciesSearch (q : String)
  | occSearch (taxonKey limit offset : Nat) (hasCoordinate hasImage : Bool)
  | occSearchB (taxonKey limit : Nat) (hasCoordinate hasImage : Bool)
deriving DecidableEq, Repr

/-! ### Persistent cache (lib/gbif-cache.ts, claim C9) -/

structure GBIFSpecies where
  key : Nat
  scientificName : String
  canonicalName : String
  kingdom : String
  phylum : String
  genusKey : Option Nat
  familyKey : Option Nat
deriving DecidableEq, Repr

/-- GBIFCacheData: the in-memory structure, all four namespaces. -/
structure GBIFCacheData where
  taxonKeys : List (String × Option Nat)
  occurrences : List (Nat × List GBIFOccurrence)
  speciesDetails : List (Nat × GBIFSpecies)
  speciesMatches : List (String × List GBIFSpeciesMatch)
deriving DecidableEq, Repr

def emptyCacheData : GBIFCacheData :=
  ⟨[], [], [], []⟩

/-- The GBIFCache object: in-memory data plus the durable localStorage blob
(none models an absent gbif_cache_v1 item). JSON serialization of the
structure is modelled as storing the structure itself. -/
structure CacheState where
  mem : GBIFCacheData
  store : Option GBIFCacheData
deriving DecidableEq, Repr

/-- loadFromStorage: parse the blob, or start from the empty structure. -/
def loadFromStorage (store : Option GBIFCacheData) : GBIFCacheData :=
  store.getD emptyCacheData

/-- The constructor: this.cache = this.loadFromStorage(). -/
def freshCache (store : Option GBIFCacheData) : CacheState :=
  ⟨loadFromStorage store, store⟩

/-- saveToStorage: serialize the whole in-memory structure. -/
def saveToStorage (s : CacheState) : CacheState :=
  ⟨s.mem, some s.mem⟩

def getTaxonKeyCS (s : CacheState) (speciesName : String) : Option (Option Nat) :=
  alGet s.mem.taxonKeys speciesName

def setTaxonKeyCS (s : CacheState) (speciesName : String) (taxonKey : Option Nat) :
    CacheState :=
  saveToStorage ⟨{ s.mem with taxonKeys := alSet s.mem.taxonKeys speciesName taxonKey },
                 s.store⟩

def getOccurrencesCS (s : CacheState) (taxonKey : Nat) :
    Option (List GBIFOccurrence) :=
  alGet s.mem.occurrences taxonKey

def setOccurrencesCS (s : CacheState) (taxonKey : Nat)
    (occs : List GBIFOccurrence) : CacheState :=
  saveToStorage ⟨{ s.mem with occurrences := alSet s.mem.occurrences taxonKey occs },
                 s.store⟩

/-- The write operations claim C9 quantifies over. -/
inductive CacheOp where
  | setKey (speciesName : String) (v : Option Nat)
  | setOccs (taxonKey : Nat) (occs : List GBIFOccurrence)
deriving DecidableEq, Repr

def applyCacheOp (s : CacheState) : CacheOp → CacheState
  | .setKey n v => setTaxonKeyCS s n v
  | .setOccs k occs => setOccurrencesCS s k occs

def applyCacheOps (s : CacheState) (ops : List CacheOp) : CacheState :=
  ops.foldl applyCacheOp s

/-! ### Static tables of the first client variant -/

structure CommonTaxon where
  usageKey : Nat
  kingdom : String
  phylum : String
deriving DecidableEq, Repr

/-- COMMON_TAXA: the curated fast-path table. -/
def commonTaxa : List (String × CommonTaxon) :=
  [ ("Fucus vesiculosus", ⟨2563239, "Plantae", "Phaeophyta"⟩),
    ("Saccharina latissima", ⟨2397026, "Chromista", "Ochrophyta"⟩),
    ("Laminaria digitata", ⟨2397025, "Chromista", "Ochrophyta"⟩),
    ("Ulva lactuca", ⟨2399815, "Plantae", "Chlorophyta"⟩),
    ("Porphyra umbilicalis", ⟨2667199, "Plantae", "Rhodophyta"⟩),
    ("Alaria esculenta", ⟨2396889, "Chromista", "Ochrophyta"⟩),
    ("Palmaria palmata", ⟨2664150, "Plantae", "Rhodophyta"⟩),
    ("Himanthalia elongata", ⟨2397056, "Chromista", "Ochrophyta"⟩),
    ("Undaria pinnatifida", ⟨2397034, "Chromista", "Ochrophyta"⟩),
    ("Ascophyllum nodosum", ⟨2396916, "Chromista", "Ochrophyta"⟩) ]

/-- TAXONOMIC_SYNONYMS: mapping of synonyms to accepted names. -/
def taxonomicSynonyms : List (String × String) :=
  [ ("Fucus sp.", "Fucus vesiculosus"),
    ("Laminaria sp.", "Laminaria digitata"),
    ("Ulva sp.", "Ulva lactuca"),
    ("Porphyra sp.", "Porphyra umbilicalis"),
    ("Chondrus crispus", "Chondrus crispus"),
    ("Codium fragile", "Codium fragile"),
    ("Enteromorpha sp.", "Ulva intestinalis"),
    ("Enteromorpha intestinalis", "Ulva intestinalis"),
    ("Enteromorpha compressa", "Ulva compressa"),
    ("Laminaria hyperborea", "Laminaria hyperborea"),
    ("Laminaria saccharina", "Saccharina latissima"),
    ("Sargassum muticum", "Sargassum muticum"),
    ("Macrocystis pyrifera", "Macrocystis pyrifera"),
    ("Gracilaria sp.", "Gracilaria gracilis"),
    ("Gelidium sp.", "Gelidium corneum"),
    ("Cystoseira sp.", "Cystoseira baccata"),
    ("Calliblepharis sp.", "Calliblepharis ciliata"),
    ("Cladophora sp.", "Cladophora rupestris"),
    ("Mastocarpus stellatus", "Mastocarpus stellatus"),
    ("Dilsea carnosa", "Dilsea carnosa"),
    ("Grateloupia turuturu", "Grateloupia turuturu"),
    ("Chorda filum", "Chorda filum"),
    ("Bifurcaria bifurcata", "Bifurcaria bifurcata"),
    ("Ectocarpus sp.", "Ectocarpus siliculosus"),
    ("Eisenia arborea", "Eisenia arborea"),
    ("Polysiphonia sp.", "Polysiphonia fucoides"),
    ("Asparagopsis sp.", "Asparagopsis armata"),
    ("Ceramium sp.", "Ceramium virgatum"),
    ("Sphaerotrichia divaricata", "Sphaerotrichia divaricata") ]

/-- resolveSynonym: TAXONOMIC_SYNONYMS[name.trim()] || name.trim(). -/
def resolveSynonym (name : String) : String :=
  (alGet taxonomicSynonyms (jsTrim name)).getD (jsTrim name)

/-- The match object built for a COMMON_TAXA hit. -/
def commonMatchData (normalizedName : String) (c : CommonTaxon) : GBIFSpeciesMatch :=
  { usageKey := some c.usageKey
    scientificName := normalizedName
    canonicalName := normalizedName
    kingdom := c.kingdom
    phylum := c.phylum
    rank := "SPECIES"
    status := "ACCEPTED"
    matchType := "EXACT"
    confidence := 100
    synonym := false
    kingdomKey := 0
    phylumKey := 0 }

/-! ### matchSpeciesName (first client variant) -/

/-- Result of matchSpeciesName: the returned value, the speciesMatchCache
afterwards, and the network calls issued. -/
structure MatchOut where
  result : Option GBIFSpeciesMatch
  cache : List (String × GBIFSpeciesMatch)
  calls : List ApiCall
deriving DecidableEq, Repr

/-- genus + rest[0] from normalizedName.split(" "). -/
def simpleNameOf (normalizedName : String) : String :=
  ((jsSplit normalizedName).headD "") ++ " " ++
    (((jsSplit normalizedName).drop 1).headD "")

/-- The cached simplified-name probe: only for a name that looks like
genus species rank-suffix (more than two space-separated tokens), look up the
cached match of its first two tokens.  Cached values are match objects and
hence truthy. -/
def simplifiedProbe (cache : List (String × GBIFSpeciesMatch))
    (normalizedName : String) : Option GBIFSpeciesMatch :=
  if jsContainsSpace normalizedName then
    if (jsSplit normalizedName).length > 2 then
      alGet cache (jsLower (jsJoinSpace ((jsSplit normalizedName).take 2)))
    else none
  else none

/-- The tail of matchSpeciesName after the synonym-recursion step: the cached
simplified-name probe, then the network exact match, then the fuzzy retry.
callsAcc are calls already issued by the synonym recursion.  A transport
error of the exact match hits the outer catch and returns null without the
fuzzy retry; a transport error of the fuzzy retry is caught and falls through
to return null. -/
def matchTail (api : GBIFApi) (cache : List (String × GBIFSpeciesMatch))
    (cacheKey normalizedName : String) (callsAcc : List ApiCall) : MatchOut :=
  match simplifiedProbe cache normalizedName with
  | some m => ⟨some m, alSet cache cacheKey m, callsAcc⟩
  | none =>
    match api.matchVerbose normalizedName with
    | .error _ =>
        ⟨none, cache, callsAcc ++ [.matchVerbose normalizedName]⟩
    | .ok data =>
        if truthyKey data.usageKey then
          ⟨some data, alSet cache cacheKey data,
           callsAcc ++ [.matchVerbose normalizedName]⟩
        else if jsContainsSpace normalizedName then
          match api.matchFuzzy (simpleNameOf normalizedName) with
          | .error _ =>
              ⟨none, cache,
               callsAcc ++ [.matchVerbose normalizedName,
                            .matchFuzzy (simpleNameOf normalizedName)]⟩
          | .ok fuzzyData =>
              if truthyKey fuzzyData.usageKey then
                ⟨some { fuzzyData with confidence := min fuzzyData.confidence 80 },
                 alSet cache cacheKey
                   { fuzzyData with confidence := min fuzzyData.confidence 80 },
                 callsAcc ++ [.matchVerbose normalizedName,
                              .matchFuzzy (simpleNameOf normalizedName)]⟩
              else
                ⟨none, cache,
                 callsAcc ++ [.matchVerbose normalizedName,
                              .matchFuzzy (simpleNameOf normalizedName)]⟩
        else ⟨none, cache, callsAcc ++ [.matchVerbose normalizedName]⟩

/-- matchSpeciesName.  The source local variables are inlined:
resolvedName = resolveSynonym name, normalizedName = jsTrim resolvedName,
cacheKey = jsLower (jsTrim name).  The fuel bounds the synonym recursion; the
source recursion depth is at most 2 because resolveSynonym is idempotent on
every table entry, so any fuel of at least 2 reproduces the source
behavior. -/
def matchSpeciesName (api : GBIFApi) :
    Nat → List (String × GBIFSpeciesMatch) → String → MatchOut
  | 0, cache, _ => ⟨none, cache, []⟩
  | fuel + 1, cache, name =>
    if name = "" then ⟨none, cache, []⟩
    else
      match alGet commonTaxa (jsTrim (resolveSynonym name)) with
      | some c =>
          ⟨some (commonMatchData (jsTrim (resolveSynonym name)) c),
           alSet cache (jsLower (jsTrim name))
             (commonMatchData (jsTrim (resolveSynonym name)) c), []⟩
      | none =>
        match alGet cache (jsLower (jsTrim name)) with
        | some m => ⟨some m, cache, []⟩
        | none =>
          if resolveSynonym name ≠ name then
            match matchSpeciesName api fuel cache (resolveSynonym name) with
            | ⟨some m, c2, cs⟩ =>
                ⟨some m, alSet c2 (jsLower (jsTrim name)) m, cs⟩
            | ⟨none, c2, cs⟩ =>
                matchTail api c2 (jsLower (jsTrim name))
                  (jsTrim (resolveSynonym name)) cs
          else
            matchTail api cache (jsLower (jsTrim name))
              (jsTrim (resolveSynonym name)) []

/-! ### fetchTaxonKey (first client variant) -/

structure KeyOut where
  result : Option Nat
  cache : CacheState
  calls : List ApiCall
deriving Repr

/-- fetchTaxonKey: COMMON_TAXA fast path, persistent-cache lookup
(undefined distinct from cached null), species/match, species/search
fallback, caching null on confirmed not-found; a thrown transport error is
caught and returns null without caching. -/
def fetchTaxonKey (api : GBIFApi) (st : CacheState) (speciesName : String) :
    KeyOut :=
  match alGet commonTaxa speciesName with
  | some c => ⟨some c.usageKey, st, []⟩
  | none =>
    match getTaxonKeyCS st speciesName with
    | some cachedKey => ⟨cachedKey, st, []⟩
    | none =>
      match api.matchPlain speciesName with
      | .error _ => ⟨none, st, [.matchPlain speciesName]⟩
      | .ok m =>
        if truthyKey m.usageKey then
          ⟨m.usageKey, setTaxonKeyCS st speciesName m.usageKey,
           [.matchPlain speciesName]⟩
        else
          match api.speciesSearch speciesName with
          | .error _ =>
              ⟨none, st, [.matchPlain speciesName, .speciesSearch speciesName]⟩
          | .ok sr =>
            let calls := [ApiCall.matchPlain speciesName,
                          ApiCall.speciesSearch speciesName]
            match sr.results with
            | some (r :: _) =>
                let key := jsOrKey r.key r.usageKey
                if truthyKey key then
                  ⟨key, setTaxonKeyCS st speciesName key, calls⟩
                else ⟨none, setTaxonKeyCS st speciesName none, calls⟩
            | _ => ⟨none, setTaxonKeyCS st speciesName none, calls⟩

/-! ### fetchGBIFOccurrences (first client variant) -/

/-- String(x || ''); an absent or empty value maps to the empty string. -/
def jsStrOrEmpty (o : Option String) : String := o.getD ""

/-- result.eventDate ? String(result.eventDate) : undefined; the empty string
is falsy. -/
def jsOptStr (o : Option String) : Option String :=
  match o with
  | some s => if s = "" then none else some s
  | none => none

/-- The per-record validation filter: both coordinates are numbers, and with
hasImages a non-empty raw media array is present. -/
def keepOccurrence (hasImages : Bool) (r : RawOccurrence) : Bool :=
  r.decimalLatitude.isSome && r.decimalLongitude.isSome &&
    (!hasImages ||
      (match r.media with
       | some l => decide (l.length > 0)
       | none => false))

/-- media entry filter: m.type === StillImage and typeof m.identifier ===
string (an empty identifier string passes). -/
def mediaKeep (m : RawMedia) : Bool :=
  m.type == some "StillImage" && m.identifier.isSome

def convertMedia (m : RawMedia) : GBIFMedia :=
  ⟨jsStrOrEmpty m.type, jsStrOrEmpty m.identifier, m.title⟩

/-- The record constructor applied to a raw record that passed the filter. -/
def convertOccurrence (r : RawOccurrence) : GBIFOccurrence :=
  { key := jsStrOrEmpty r.key
    scientificName := jsStrOrEmpty r.scientificName
    decimalLatitude := r.decimalLatitude.getD 0
    decimalLongitude := r.decimalLongitude.getD 0
    eventDate := jsOptStr r.eventDate
    media :=
      match r.media with
      | some l => some ((l.filter mediaKeep).map convertMedia)
      | none => none }

/-- The page loop: stop at the first page with absent or empty results,
otherwise filter, convert and concatenate. -/
def collectPages (hasImages : Bool) : List OccPage → List GBIFOccurrence
  | [] => []
  | p :: rest =>
    match p.results with
    | none => []
    | some rs =>
        if rs.length = 0 then []
        else ((rs.filter (keepOccurrence hasImages)).map convertOccurrence) ++
             collectPages hasImages rest

structure OccOut where
  result : List GBIFOccurrence
  cache : CacheState
  calls : List ApiCall
deriving Repr

/-- fetchGBIFOccurrences (first variant): cache check, parallel paged fetch,
per-record filtering, truncation to limit, write-through cache of the final
list; a rejected page makes the whole Promise.all reject, caught to return []
without caching.  The call list records every page request, since all pages
are issued before any is awaited. -/
def pageSizeOf (limit : Nat) : Nat := min limit 100

def pagesToFetchOf (limit : Nat) : Nat :=
  (limit + pageSizeOf limit - 1) / pageSizeOf limit

/-- The page requests issued by one paged fetch (all of them are issued
before any is awaited). -/
def pageCallsOf (taxonKey limit : Nat) (hasCoordinate hasImages : Bool) :
    List ApiCall :=
  (List.range (pagesToFetchOf limit)).map
    (fun page => ApiCall.occSearch taxonKey (pageSizeOf limit)
      (page * pageSizeOf limit) hasCoordinate hasImages)

def fetchGBIFOccurrences (api : GBIFApi) (st : CacheState) (taxonKey : Nat)
    (limit : Nat) (hasCoordinate : Bool) (hasImages : Bool) : OccOut :=
  if taxonKey = 0 then ⟨[], st, []⟩
  else
    match getOccurrencesCS st taxonKey with
    | some cached => ⟨cached, st, []⟩
    | none =>
      match (List.range (pagesToFetchOf limit)).mapM
          (fun page => api.occSearch taxonKey (pageSizeOf limit)
            (page * pageSizeOf limit) hasCoordinate hasImages) with
      | .error _ => ⟨[], st, pageCallsOf taxonKey limit hasCoordinate hasImages⟩
      | .ok pages =>
          ⟨(collectPages hasImages pages).take limit,
           setOccurrencesCS st taxonKey ((collectPages hasImages pages).take limit),
           pageCallsOf taxonKey limit hasCoordinate hasImages⟩

/-! ### fetchGBIFOccurrences (second client variant)

The second variant maps the raw results directly onto its GBIFOccurrence
interface without any coordinate or media filtering; its occurrence record
can therefore carry absent fields at runtime despite the interface types. -/

namespace ServiceB

/-- The runtime shape of a second-variant occurrence record: each field is
copied verbatim from the raw JSON. -/
structure OccB where
  key : Option String
  scientificName : Option String
  decimalLatitude : Option Int
  decimalLongitude : Option Int
  eventDate : Option String
  media : Option (List RawMedia)
deriving DecidableEq, Repr

def convertRaw (occ : RawOccurrence) : OccB :=
  ⟨occ.key, occ.scientificName, occ.decimalLatitude, occ.decimalLongitude,
   occ.eventDate, occ.media⟩

structure OccOutB where
  result : List OccB
  cache : List (Nat × List OccB)
  calls : List ApiCall
deriving Repr

/-- Second-variant fetchGBIFOccurrences: single unpaged request, raw mapping,
module-level occurrencesCache. -/
def fetchGBIFOccurrences (api : GBIFApi) (cache : List (Nat × List OccB))
    (taxonKey : Nat) (limit : Nat) (hasCoordinate : Bool) (hasImages : Bool) :
    OccOutB :=
  if taxonKey = 0 then ⟨[], cache, []⟩
  else
    match alGet cache taxonKey with
    | some cached => ⟨cached, cache, []⟩
    | none =>
      let call := ApiCall.occSearchB taxonKey limit hasCoordinate hasImages
      match api.occSearchB taxonKey limit hasCoordinate hasImages with
      | .error _ => ⟨[], cache, [call]⟩
      | .ok data =>
        match data.results with
        | some rs =>
            let occurrences := rs.map convertRaw
            ⟨occurrences, alSet cache taxonKey occurrences, [call]⟩
        | none => ⟨[], cache, [call]⟩

end ServiceB

/-! ### The Batch Orchestrator (components/map-data-provider.tsx) -/

/-- The module-level provider cache:
Map of species name to taxonKey and occurrences. -/
def ProviderCache : Type := List (String × Nat × List GBIFOccurrence)

/-- The state threaded through processSpecies: the three aggregate arrays of
one loadOccurrences run, the provider cache, the persistent GBIF cache, and
the network calls issued so far. -/
structure ProcState where
  newOccurrences : List GBIFOccurrence
  successfulSpecies : List String
  failedSpecies : List (String × String)
  providerCache : List (String × Nat × List GBIFOccurrence)
  libCache : CacheState
  calls : List ApiCall

def initProcState : ProcState :=
  ⟨[], [], [], [], freshCache none, []⟩

def reasonNotFound : String := "Species not found in GBIF"
def reasonNoOccurrences : String := "No occurrences found"
def reasonFetchFailed : String := "Error fetching data"

/-- processSpecies: provider-cache fast path, then fetchTaxonKey and
fetchGBIFOccurrences (first variant, default arguments limit 100,
hasCoordinate true, hasImages true), recording exactly one outcome.  The
catch branch recording reasonFetchFailed only fires when the awaited calls
throw; both awaited functions catch internally, so the translated body has no
throwing subterm.  When unmounted the function returns before doing
anything. -/
def processSpecies (api : GBIFApi) (mounted : Bool) (st : ProcState)
    (speciesName : String) : ProcState :=
  if !mounted then st
  else
    match alGet st.providerCache speciesName with
    | some (_, cachedOccs) =>
        { st with newOccurrences := st.newOccurrences ++ cachedOccs
                  successfulSpecies := st.successfulSpecies ++ [speciesName] }
    | none =>
      match fetchTaxonKey api st.libCache speciesName with
      | ⟨some k, tkCache, tkCalls⟩ =>
        if k ≠ 0 then
          match fetchGBIFOccurrences api tkCache k 100 true true with
          | ⟨occResult, occCache, occCalls⟩ =>
            if occResult.length > 0 then
              { newOccurrences := st.newOccurrences ++ occResult
                successfulSpecies := st.successfulSpecies ++ [speciesName]
                failedSpecies := st.failedSpecies
                providerCache := alSet st.providerCache speciesName (k, occResult)
                libCache := occCache
                calls := st.calls ++ tkCalls ++ occCalls }
            else
              { st with
                failedSpecies :=
                  st.failedSpecies ++ [(speciesName, reasonNoOccurrences)]
                libCache := occCache
                calls := st.calls ++ tkCalls ++ occCalls }
        else
          { st with
            failedSpecies := st.failedSpecies ++ [(speciesName, reasonNotFound)]
            libCache := tkCache
            calls := st.calls ++ tkCalls }
      | ⟨none, tkCache, tkCalls⟩ =>
          { st with
            failedSpecies := st.failedSpecies ++ [(speciesName, reasonNotFound)]
            libCache := tkCache
            calls := st.calls ++ tkCalls }

/-- A sequence of per-name processSpecies calls (the per-run loop, and
successive runs, are such sequences). -/
def processList (api : GBIFApi) (mounted : Bool) (st : ProcState)
    (names : List String) : ProcState :=
  names.foldl (processSpecies api mounted) st

/-! ### Chunked concurrency of loadOccurrences (claim C8)

  const concurrencyLimit = 3
  for (let i = 0; i < speciesNames.length; i += concurrencyLimit) {
    const chunk = speciesNames.slice(i, i + concurrencyLimit)
    await Promise.all(chunk.map(processSpecies ...))
  }
-/

def concurrencyLimit : Nat := 3

/-- The chunks of the slice loop with step 3. -/
def chunksOf3 {α : Type} : List α → List (List α)
  | [] => []
  | [a] => [[a]]
  | [a, b] => [[a, b]]
  | a :: b :: c :: rest => [a, b, c] :: chunksOf3 rest

/-- Scheduler state of one run: chunks fully settled, the chunk loaded by the
current Promise.all, its members still in flight, and chunks not yet
started. -/
structure BatchState (α : Type) where
  done : List (List α)
  cur : List α
  pending : List α
  rest : List (List α)

/-- One scheduler event: a member of the current chunk settles (in any
order), or — only once the whole chunk has settled — the loop advances and
the next Promise.all puts its entire chunk in flight. -/
inductive BatchStep {α : Type} : BatchState α → BatchState α → Prop
  | settle (d : List (List α)) (c : List α) (r : List (List α))
      (l1 l2 : List α) (x : α) :
      BatchStep ⟨d, c, l1 ++ x :: l2, r⟩ ⟨d, c, l1 ++ l2, r⟩
  | nextChunk (d : List (List α)) (c : List α) (r : List (List α))
      (c' : List α) :
      BatchStep ⟨d, c, [], c' :: r⟩ ⟨d ++ [c], c', c', r⟩

def batchInit {α : Type} (names : List α) : BatchState α :=
  ⟨[], [], [], chunksOf3 names⟩

def BatchReachable {α : Type} (names : List α) (s : BatchState α) : Prop :=
  Relation.ReflTransGen BatchStep (batchInit names) s

/-! ### The cancellation structure of MapDataProvider (claim C1)

loadOccurrences aborts the previous run through abortControllerRef before
installing its own controller, but neither processSpecies nor the fetch layer
ever receives the abort signal, so a superseded run keeps executing; the only
guard on publication (setOccurrences / setFailedSpecies /
setSpeciesWithGBIFData) is isMountedRef.current.  The model below keeps, per
run, the number of chunk iterations it still has to execute; runs are
numbered in start order; publishedBy records which run last executed the
publish block. -/

inductive RunPhase where
  | running (remainingChunks : Nat)
  | finished (published : Bool)
deriving DecidableEq, Repr

structure PState where
  mounted : Bool
  publishedBy : Option Nat
  phases : List RunPhase
  abortOwner : Option Nat
deriving DecidableEq, Repr

inductive PAct where
  /-- A debounced loadOccurrences invocation starts: it aborts the previous
  controller (without behavioral effect, the signal being unused) and
  installs its own; a fresh run id is allocated.  Guard: the first line of
  loadOccurrences returns when unmounted. -/
  | start (chunks : Nat)
  /-- One iteration of the chunk loop of run rid completes; the loop head
  checks isMountedRef and does not continue when unmounted. -/
  | work (rid : Nat)
  /-- Run rid leaves its chunk loop (normally, or by the unmounted break) and
  executes the final block: it publishes its aggregate iff still mounted. -/
  | finish (rid : Nat)
  /-- The effect cleanup: isMountedRef.current = false and abort. -/
  | unmount
deriving DecidableEq, Repr

def applyPAct (s : PState) : PAct → PState
  | .start chunks =>
      if s.mounted then
        { s with phases := s.phases ++ [.running chunks]
                 abortOwner := some s.phases.length }
      else s
  | .work rid =>
      match s.phases.get? rid with
      | some (.running (n + 1)) =>
          if s.mounted then { s with phases := s.phases.set rid (.running n) }
          else s
      | _ => s
  | .finish rid =>
      match s.phases.get? rid with
      | some (.running n) =>
          if n = 0 ∨ s.mounted = false then
            if s.mounted then
              { s with phases := s.phases.set rid (.finished true)
                       publishedBy := some rid }
            else { s with phases := s.phases.set rid (.finished false) }
          else s
      | _ => s
  | .unmount => { s with mounted := false }

def initPState : PState := ⟨true, none, [], none⟩

def runPTrace (acts : List PAct) : PState :=
  acts.foldl applyPAct initPState

/-! ## Theorems -/

/-! ### Claim C9: persistent cache round-trip and write-through -/

theorem applyCacheOp_store (s : CacheState) (op : CacheOp) :
    (applyCacheOp s op).store = some (applyCacheOp s op).mem := by
  cases op <;> rfl

/-- After construction and any write sequence, the store is either untouched
(and the memory empty) or an exact serialization of the memory. -/
def cacheSynced (s : CacheState) : Prop :=
  (s.store = none ∧ s.mem = emptyCacheData) ∨ s.store = some s.mem

theorem cacheSynced_ops (s : CacheState) (h : cacheSynced s)
    (ops : List CacheOp) : cacheSynced (applyCacheOps s ops) := by
  induction ops generalizing s with
  | nil => exact h
  | cons op rest ih =>
      exact ih (applyCacheOp s op) (Or.inr (applyCacheOp_store s op))

/-- C9: for every cache state reachable from a fresh process by
setTaxonKey/setOccurrences writes, reloading the durable blob in a fresh
process preserves getTaxonKey and getOccurrences observations; and every
write leaves the durable store an exact serialization of the in-memory
structure (write-through), so a crash loses at most the in-flight write. -/
theorem claim_C9_roundtrip_writethrough :
    (∀ (ops : List CacheOp) (name : String) (k : Nat),
       getTaxonKeyCS (freshCache (applyCacheOps (freshCache none) ops).store) name
         = getTaxonKeyCS (applyCacheOps (freshCache none) ops) name
       ∧ getOccurrencesCS (freshCache (applyCacheOps (freshCache none) ops).store) k
         = getOccurrencesCS (applyCacheOps (freshCache none) ops) k)
    ∧ (∀ (pre : List CacheOp) (op : CacheOp),
       (applyCacheOps (freshCache none) (pre ++ [op])).store
         = some (applyCacheOps (freshCache none) (pre ++ [op])).mem) := by
  constructor
  · intro ops name k
    have h := cacheSynced_ops (freshCache none) (Or.inl ⟨rfl, rfl⟩) ops
    rcases h with ⟨h1, h2⟩ | h1
    · constructor
      · rw [h1]
        unfold getTaxonKeyCS
        rw [h2]
        rfl
      · rw [h1]
        unfold getOccurrencesCS
        rw [h2]
        rfl
    · constructor
      · rw [h1]
        rfl
      · rw [h1]
        rfl
  · intro pre op
    have e : applyCacheOps (freshCache none) (pre ++ [op])
        = applyCacheOp (applyCacheOps (freshCache none) pre) op := by
      simp [applyCacheOps, List.foldl_append]
    rw [e]
    exact applyCacheOp_store _ _

/-! ### Claim C3: retry/backoff transport -/

/-- An environment whose first attempt is rejected with an HTTP error status
and whose second attempt succeeds. -/
def http404Then : Nat → Attempt := fun i =>
  if i = 0 then .failure (.httpStatus 404) else .success

/-- C3 counterexample: in the first client variant an HTTP-status rejection
(not a transport failure) consumes retry budget — the 404 is retried after a
1000ms backoff and the request succeeds on the second attempt; so retries are
not limited to transport-level failures.  The second conjunct shows the
second variant does not retry an HTTP-status rejection at all, contradicting
the claim that every outbound request gets the 3-attempt doubling-backoff
treatment. -/
theorem claim_C3_counterexample :
    fetchGBIFDataRun http404Then = ⟨.ok (), 2, [1000]⟩ ∧
    runAxios2 (fun _ => .failure (.httpStatus 503))
      = ⟨.error (.httpStatus 503), 1, []⟩ := by
  constructor <;> rfl

/-- C3 (amended): the first-variant transport retries any rejected attempt,
waiting 1000 then 2000 (doubling), with a budget of 3 total attempts before
the error propagates; a fulfilled (2xx) response — which is how a well-formed
not-found arrives — is never retried.  The second variant retries exactly
once, immediately, and only on a network error. -/
theorem claim_C3_transport (attempts : Nat → Attempt) :
    ((∀ i, attempts i ≠ .success) →
       (fetchGBIFDataRun attempts).attemptsMade = 3 ∧
       (fetchGBIFDataRun attempts).waits = [1000, 2000] ∧
       ∃ k, attempts 2 = .failure k ∧
         (fetchGBIFDataRun attempts).outcome = .error k)
    ∧ (attempts 0 = .success → fetchGBIFDataRun attempts = ⟨.ok (), 1, []⟩)
    ∧ (∀ k, attempts 0 = .failure k → k ≠ .networkError →
        runAxios2 attempts = ⟨.error k, 1, []⟩)
    ∧ (attempts 0 = .failure .networkError →
        (runAxios2 attempts).attemptsMade = 2 ∧
        (runAxios2 attempts).waits = []) := by
  refine ⟨?_, ?_, ?_, ?_⟩
  · intro h
    rcases hk0 : attempts 0 with _ | k0
    · exact absurd hk0 (h 0)
    rcases hk1 : attempts 1 with _ | k1
    · exact absurd hk1 (h 1)
    rcases hk2 : attempts 2 with _ | k2
    · exact absurd hk2 (h 2)
    refine ⟨?_, ?_, k2, rfl, ?_⟩ <;>
      simp [fetchGBIFDataRun, runAxios1, hk0, hk1, hk2]
  · intro h
    simp [fetchGBIFDataRun, runAxios1, h]
  · intro k h hk
    simp [runAxios2, h, hk]
  · intro h
    rcases h1 : attempts 1 with _ | k1 <;> simp [runAxios2, h, h1]

/-- C3 witness: the general transport theorem applied to the always-network-
failing environment and to concrete successful/failing environments. -/
theorem claim_C3_witness :
    ((fetchGBIFDataRun (fun _ => .failure .networkError)).attemptsMade = 3 ∧
     (fetchGBIFDataRun (fun _ => .failure .networkError)).waits = [1000, 2000] ∧
     ∃ k, (fun _ => Attempt.failure RejectKind.networkError) 2 = .failure k ∧
       (fetchGBIFDataRun (fun _ => .failure .networkError)).outcome = .error k) ∧
    fetchGBIFDataRun (fun _ => .success) = ⟨.ok (), 1, []⟩ ∧
    runAxios2 (fun _ => .failure .timedOut) = ⟨.error .timedOut, 1, []⟩ ∧
    (runAxios2 (fun _ => .failure .networkError)).attemptsMade = 2 := by
  refine ⟨(claim_C3_transport (fun _ => .failure .networkError)).1 (fun i => by simp),
          (claim_C3_transport (fun _ => .success)).2.1 rfl,
          (claim_C3_transport (fun _ => .failure .timedOut)).2.2.1 .timedOut rfl (by simp),
          ((claim_C3_transport (fun _ => .failure .networkError)).2.2.2 rfl).1⟩

/-! ### Claim C1: superseded runs still publish -/

/-- Run 0 starts with one chunk left; a new input change starts run 1, which
aborts run 0s controller and installs its own; run 1 completes and
publishes; run 0 (still mounted, its abort signal never consulted) then
completes and publishes its stale aggregate over run 1s. -/
def staleTrace : List PAct :=
  [.start 1, .start 1, .work 1, .finish 1, .work 0, .finish 0]

/-- C1: evaluating the provider model at the failing trace: after run 1 (the
newest run) publishes, the superseded run 0 also reaches the publish block —
publication is guarded only by isMountedRef — and its stale aggregate ends up
as the published state. -/
theorem claim_C1_stale_publication :
    (runPTrace (staleTrace.take 4)).publishedBy = some 1 ∧
    (runPTrace staleTrace).publishedBy = some 0 ∧
    (runPTrace staleTrace).abortOwner = some 1 ∧
    (runPTrace staleTrace).phases.get? 0 = some (.finished true) := by
  refine ⟨rfl, rfl, rfl, rfl⟩

/-! ### Claim C8: chunked batch concurrency -/

theorem chunksOf3_mem_le {α : Type} :
    ∀ (l : List α), ∀ c ∈ chunksOf3 l, c.length ≤ 3
  | [], c, h => by simp [chunksOf3] at h
  | [a], c, h => by
      simp [chunksOf3] at h
      subst h
      simp
  | [a, b], c, h => by
      simp [chunksOf3] at h
      subst h
      simp
  | a :: b :: d :: rest, c, h => by
      simp only [chunksOf3, List.mem_cons] at h
      rcases h with h | h
      · subst h
        simp
      · exact chunksOf3_mem_le rest c h

theorem chunksOf3_flatten {α : Type} :
    ∀ (l : List α), (chunksOf3 l).flatten = l
  | [] => rfl
  | [a] => rfl
  | [a, b] => rfl
  | a :: b :: d :: rest => by
      simp only [chunksOf3, List.flatten_cons]
      rw [chunksOf3_flatten rest]
      rfl

/-- The run invariant: never more than a full chunk in flight, all chunks
bounded by the concurrency limit, and the chunks partition the snapshot of
names in submission order. -/
def BatchInv {α : Type} (names : List α) (s : BatchState α) : Prop :=
  s.pending.length ≤ s.cur.length ∧ s.cur.length ≤ concurrencyLimit ∧
  (∀ c ∈ s.rest, c.length ≤ concurrencyLimit) ∧
  s.done.flatten ++ s.cur ++ s.rest.flatten = names

theorem batchInv_init {α : Type} (names : List α) :
    BatchInv names (batchInit names) := by
  refine ⟨Nat.le_refl 0, by simp [batchInit, concurrencyLimit], ?_, ?_⟩
  · intro c hc
    exact chunksOf3_mem_le names c hc
  · simp [batchInit, chunksOf3_flatten]

theorem batchInv_step {α : Type} (names : List α) (s s' : BatchState α)
    (hstep : BatchStep s s') (hinv : BatchInv names s) : BatchInv names s' := by
  rcases hinv with ⟨hp, hc, hr, hj⟩
  cases hstep with
  | settle d c r l1 l2 x =>
      refine ⟨?_, hc, hr, hj⟩
      simp only [List.length_append, List.length_cons] at hp ⊢
      omega
  | nextChunk d c r c' =>
      refine ⟨Nat.le_refl _, hr c' (by simp), ?_, ?_⟩
      · intro cc hcc
        exact hr cc (by simp [hcc])
      · simpa [List.flatten_append] using hj

/-- C8: within one run, the names are partitioned into chunks of at most
concurrencyLimit = 3, the chunks are processed in submission order — the next
Promise.all only starts once the whole current chunk has settled, which the
step relation enforces — and in every reachable scheduler state at most 3
per-name pipelines are in flight. -/
theorem claim_C8_bounded_concurrency (names : List String) (s : BatchState String)
    (h : BatchReachable names s) :
    s.pending.length ≤ concurrencyLimit ∧
    s.cur.length ≤ concurrencyLimit ∧
    (∀ c ∈ s.rest, c.length ≤ concurrencyLimit) ∧
    s.done.flatten ++ s.cur ++ s.rest.flatten = names := by
  have hinv : BatchInv names s := by
    induction h with
    | refl => exact batchInv_init names
    | tail _ hstep ih => exact batchInv_step names _ _ hstep ih
  rcases hinv with ⟨hp, hc, hr, hj⟩
  exact ⟨Nat.le_trans hp hc, hc, hr, hj⟩

/-- C8 witness: the state after loading the first chunk of a four-name run,
reached by one nextChunk step, satisfies the bound and the partition. -/
theorem claim_C8_witness :
    (⟨[[]], ["a", "b", "c"], ["a", "b", "c"], [["d"]]⟩ :
        BatchState String).pending.length ≤ concurrencyLimit ∧
    (⟨[[]], ["a", "b", "c"], ["a", "b", "c"], [["d"]]⟩ :
        BatchState String).cur.length ≤ concurrencyLimit ∧
    (∀ c ∈ (⟨[[]], ["a", "b", "c"], ["a", "b", "c"], [["d"]]⟩ :
        BatchState String).rest, c.length ≤ concurrencyLimit) ∧
    (⟨[[]], ["a", "b", "c"], ["a", "b", "c"], [["d"]]⟩ :
        BatchState String).done.flatten ++
      (⟨[[]], ["a", "b", "c"], ["a", "b", "c"], [["d"]]⟩ :
        BatchState String).cur ++
      (⟨[[]], ["a", "b", "c"], ["a", "b", "c"], [["d"]]⟩ :
        BatchState String).rest.flatten = ["a", "b", "c", "d"] :=
  claim_C8_bounded_concurrency ["a", "b", "c", "d"] _
    (Relation.ReflTransGen.tail Relation.ReflTransGen.refl
      (BatchStep.nextChunk [] [] [["d"]] ["a", "b", "c"]))

/-! ### Concrete API environments for witnesses and counterexamples -/

/-- A species/match payload with no usageKey (a well-formed not-found). -/
def noKeyMatch : GBIFSpeciesMatch :=
  ⟨none, "", "", "", "", "", "", "NONE", 0, false, 0, 0⟩

/-- An environment in which every lookup completes but nothing is found. -/
def apiNoMatch : GBIFApi :=
  { matchVerbose := fun _ => .ok noKeyMatch
    matchFuzzy := fun _ => .ok noKeyMatch
    matchPlain := fun _ => .ok noKeyMatch
    speciesSearch := fun _ => .ok ⟨some []⟩
    occSearch := fun _ _ _ _ _ => .ok ⟨some []⟩
    occSearchB := fun _ _ _ _ => .ok ⟨some []⟩ }

/-- An environment in which every request throws a transport error after
exhausting its retries. -/
def apiDown : GBIFApi :=
  { matchVerbose := fun _ => .error ()
    matchFuzzy := fun _ => .error ()
    matchPlain := fun _ => .error ()
    speciesSearch := fun _ => .error ()
    occSearch := fun _ _ _ _ _ => .error ()
    occSearchB := fun _ _ _ _ => .error () }

/-! ### Claim C10: the provider-level cache holds only non-empty results -/

/-- Every entry of the module-level gbifCache Map of the provider carries a
non-empty occurrence list. -/
def provEntriesNonempty (st : ProcState) : Prop :=
  ∀ (name : String) (k : Nat) (occs : List GBIFOccurrence),
    alGet st.providerCache name = some (k, occs) → occs ≠ []

/-- processSpecies either leaves the provider cache unchanged or inserts,
under the processed name, a pair whose occurrence list is non-empty. -/
theorem processSpecies_cache_cases (api : GBIFApi) (m : Bool) (st : ProcState)
    (name : String) :
    (processSpecies api m st name).providerCache = st.providerCache ∨
    ∃ k oc, (processSpecies api m st name).providerCache
        = alSet st.providerCache name (k, oc) ∧ oc ≠ [] := by
  cases m with
  | false => exact Or.inl rfl
  | true =>
    cases hpc : alGet st.providerCache name with
    | some p => exact Or.inl (by simp [processSpecies, hpc])
    | none =>
      rcases htk : fetchTaxonKey api st.libCache name with ⟨res, tkc, tkcs⟩
      cases res with
      | none => exact Or.inl (by simp [processSpecies, hpc, htk])
      | some k =>
        by_cases hk : k = 0
        · subst hk
          exact Or.inl (by simp [processSpecies, hpc, htk])
        · rcases hoc : fetchGBIFOccurrences api tkc k 100 true true with ⟨ocr, occa, occc⟩
          cases ocr with
          | nil => exact Or.inl (by simp [processSpecies, hpc, htk, hoc, hk])
          | cons o rest =>
              exact Or.inr ⟨k, o :: rest,
                by simp [processSpecies, hpc, htk, hoc, hk], by simp⟩

theorem provEntriesNonempty_step (api : GBIFApi) (m : Bool) (st : ProcState)
    (name : String) (h : provEntriesNonempty st) :
    provEntriesNonempty (processSpecies api m st name) := by
  intro n2 k2 occs2 hget
  rcases processSpecies_cache_cases api m st name with hsame | ⟨k, oc, hins, hne⟩
  · exact h n2 k2 occs2 (hsame ▸ hget)
  · rw [hins] at hget
    by_cases hn : n2 = name
    · subst hn
      rw [alGet_alSet_self] at hget
      cases hget
      exact hne
    · rw [alGet_alSet_ne _ _ _ _ hn] at hget
      exact h n2 k2 occs2 hget

theorem provEntriesNonempty_list (api : GBIFApi) (m : Bool) (st : ProcState)
    (names : List String) (h : provEntriesNonempty st) :
    provEntriesNonempty (processList api m st names) := by
  induction names generalizing st with
  | nil => exact h
  | cons n rest ih => exact ih _ (provEntriesNonempty_step api m st n h)

/-- C10: (i) after any sequence of processSpecies calls from the initial
state, the provider cache has an entry for a name only with a non-empty
occurrence list (names that resolved to null or yielded an empty list are
never entered); (ii) a single mounted call on a cache-missing name inserts an
entry exactly when its resolve+fetch pipeline produced a truthy taxon key and
a non-empty filtered list; (iii) a cache-missing name is re-processed rather
than short-circuited: exactly one new per-name outcome is recorded again. -/
theorem claim_C10_provider_cache (api : GBIFApi) (names : List String)
    (name : String) (k : Nat) (occs : List GBIFOccurrence) (st : ProcState)
    (hmiss : alGet st.providerCache name = none) :
    (alGet (processList api true initProcState names).providerCache name
        = some (k, occs) → occs ≠ [])
    ∧ ((alGet (processSpecies api true st name).providerCache name).isSome ↔
        ∃ k2, (fetchTaxonKey api st.libCache name).result = some k2 ∧ k2 ≠ 0 ∧
          (fetchGBIFOccurrences api (fetchTaxonKey api st.libCache name).cache
            k2 100 true true).result ≠ [])
    ∧ ((processSpecies api true st name).successfulSpecies.length +
         (processSpecies api true st name).failedSpecies.length
        = st.successfulSpecies.length + st.failedSpecies.length + 1) := by
  refine ⟨?_, ?_, ?_⟩
  · exact provEntriesNonempty_list api true initProcState names
      (by intro a b c hc; simp [initProcState, alGet] at hc) name k occs
  · rcases htk : fetchTaxonKey api st.libCache name with ⟨res, tkc, tkcs⟩
    cases res with
    | none => simp [processSpecies, hmiss, htk]
    | some k2 =>
        by_cases hk2 : k2 = 0
        · subst hk2
          simp [processSpecies, hmiss, htk]
        · rcases hoc : fetchGBIFOccurrences api tkc k2 100 true true with ⟨ocr, occa, occc⟩
          cases ocr with
          | nil => simp [processSpecies, hmiss, htk, hoc, hk2]
          | cons o rest =>
              simp [processSpecies, hmiss, htk, hoc, hk2, alGet_alSet_self]
  · rcases htk : fetchTaxonKey api st.libCache name with ⟨res, tkc, tkcs⟩
    cases res with
    | none =>
        simp [processSpecies, hmiss, htk]
        omega
    | some k2 =>
        by_cases hk2 : k2 = 0
        · subst hk2
          simp [processSpecies, hmiss, htk]
          omega
        · rcases hoc : fetchGBIFOccurrences api tkc k2 100 true true with ⟨ocr, occa, occc⟩
          cases ocr with
          | nil =>
              simp [processSpecies, hmiss, htk, hoc, hk2]
              omega
          | cons o rest =>
              simp [processSpecies, hmiss, htk, hoc, hk2]
              omega

/-- A sample validated occurrence record. -/
def sampleOcc : GBIFOccurrence :=
  ⟨"k1", "Fucus vesiculosus", 10, 20, none, none⟩

/-- C10 witness: the provider-cache theorem applied to the complete-but-empty
environment, the initial state and a concrete name. -/
theorem claim_C10_witness :
    (alGet (processList apiNoMatch true initProcState ["Ulva rigida"]).providerCache
        "Fucus serratus" = some (1, [sampleOcc]) →
      ([sampleOcc] : List GBIFOccurrence) ≠ [])
    ∧ ((alGet (processSpecies apiNoMatch true initProcState
          "Fucus serratus").providerCache "Fucus serratus").isSome ↔
        ∃ k2, (fetchTaxonKey apiNoMatch initProcState.libCache
            "Fucus serratus").result = some k2 ∧ k2 ≠ 0 ∧
          (fetchGBIFOccurrences apiNoMatch
            (fetchTaxonKey apiNoMatch initProcState.libCache
              "Fucus serratus").cache k2 100 true true).result ≠ [])
    ∧ ((processSpecies apiNoMatch true initProcState
          "Fucus serratus").successfulSpecies.length +
        (processSpecies apiNoMatch true initProcState
          "Fucus serratus").failedSpecies.length
        = initProcState.successfulSpecies.length +
          initProcState.failedSpecies.length + 1) :=
  claim_C10_provider_cache apiNoMatch ["Ulva rigida"] "Fucus serratus" 1
    [sampleOcc] initProcState rfl

/-! ### Claim C7: per-name outcomes and the unreachable transport reason -/

/-- C7 counterexample: with every endpoint failing at the transport level
(after retries), fetchTaxonKey swallows the thrown error and returns null
without caching, so processSpecies records the failure as
"Species not found in GBIF" — not "Error fetching data" as the claim
requires for a transport failure that exhausted the retry budget. -/
theorem claim_C7_transport_misreported :
    (processSpecies apiDown true initProcState "Fucus serratus").failedSpecies
      = [("Fucus serratus", reasonNotFound)] ∧
    (processSpecies apiDown true initProcState "Fucus serratus").calls
      = [.matchPlain "Fucus serratus"] ∧
    reasonNotFound ≠ reasonFetchFailed := by
  refine ⟨rfl, rfl, by decide⟩

/-- C7 (amended): for a mounted run and a name missing from the provider
cache, exactly one outcome is recorded and nothing is thrown: a null
resolution result (which includes swallowed transport errors) records
"Species not found in GBIF"; a resolved key with an empty filtered list
(which includes swallowed transport errors during the occurrence fetch)
records "No occurrences found"; a non-empty list appends the records to the
run aggregate and marks the name successful; and no recorded reason is ever
"Error fetching data". -/
theorem claim_C7_per_name_outcomes (api : GBIFApi) (st : ProcState)
    (name : String) (hmiss : alGet st.providerCache name = none) :
    ((fetchTaxonKey api st.libCache name).result = none →
       processSpecies api true st name
         = { st with
             failedSpecies := st.failedSpecies ++ [(name, reasonNotFound)]
             libCache := (fetchTaxonKey api st.libCache name).cache
             calls := st.calls ++ (fetchTaxonKey api st.libCache name).calls })
    ∧ (∀ k2, (fetchTaxonKey api st.libCache name).result = some k2 → k2 ≠ 0 →
        (((fetchGBIFOccurrences api (fetchTaxonKey api st.libCache name).cache
             k2 100 true true).result = [] →
           (processSpecies api true st name).failedSpecies
             = st.failedSpecies ++ [(name, reasonNoOccurrences)] ∧
           (processSpecies api true st name).successfulSpecies
             = st.successfulSpecies)
        ∧ ((fetchGBIFOccurrences api (fetchTaxonKey api st.libCache name).cache
             k2 100 true true).result ≠ [] →
           (processSpecies api true st name).successfulSpecies
             = st.successfulSpecies ++ [name] ∧
           (processSpecies api true st name).failedSpecies = st.failedSpecies ∧
           (processSpecies api true st name).newOccurrences
             = st.newOccurrences ++
               (fetchGBIFOccurrences api
                 (fetchTaxonKey api st.libCache name).cache
                 k2 100 true true).result)))
    ∧ ((processSpecies api true st name).successfulSpecies.length +
         (processSpecies api true st name).failedSpecies.length
        = st.successfulSpecies.length + st.failedSpecies.length + 1)
    ∧ (∀ n r, (n, r) ∈ (processSpecies api true st name).failedSpecies →
        (n, r) ∈ st.failedSpecies ∨ r = reasonNotFound ∨
          r = reasonNoOccurrences) := by
  refine ⟨?_, ?_, ?_, ?_⟩
  · intro htkr
    rcases htk : fetchTaxonKey api st.libCache name with ⟨res, tkc, tkcs⟩
    rw [htk] at htkr
    simp at htkr
    subst htkr
    simp [processSpecies, hmiss, htk]
  · intro k2 htkr hk2
    rcases htk : fetchTaxonKey api st.libCache name with ⟨res, tkc, tkcs⟩
    rw [htk] at htkr
    simp at htkr
    subst htkr
    rcases hoc : fetchGBIFOccurrences api tkc k2 100 true true with ⟨ocr, occa, occc⟩
    constructor
    · intro hocr
      simp at hocr
      subst hocr
      constructor <;> simp [processSpecies, hmiss, htk, hoc, hk2]
    · intro hocr
      simp at hocr
      cases ocr with
      | nil => exact absurd rfl hocr
      | cons o rest =>
          refine ⟨?_, ?_, ?_⟩ <;> simp [processSpecies, hmiss, htk, hoc, hk2]
  · rcases htk : fetchTaxonKey api st.libCache name with ⟨res, tkc, tkcs⟩
    cases res with
    | none =>
        simp [processSpecies, hmiss, htk]
        omega
    | some k2 =>
        by_cases hk2 : k2 = 0
        · subst hk2
          simp [processSpecies, hmiss, htk]
          omega
        · rcases hoc : fetchGBIFOccurrences api tkc k2 100 true true with ⟨ocr, occa, occc⟩
          cases ocr with
          | nil =>
              simp [processSpecies, hmiss, htk, hoc, hk2]
              omega
          | cons o rest =>
              simp [processSpecies, hmiss, htk, hoc, hk2]
              omega
  · intro n r hmem
    rcases htk : fetchTaxonKey api st.libCache name with ⟨res, tkc, tkcs⟩
    cases res with
    | none =>
        simp [processSpecies, hmiss, htk] at hmem
        rcases hmem with hmem | ⟨hn, hr⟩
        · exact Or.inl hmem
        · exact Or.inr (Or.inl hr)
    | some k2 =>
        by_cases hk2 : k2 = 0
        · subst hk2
          simp [processSpecies, hmiss, htk] at hmem
          rcases hmem with hmem | ⟨hn, hr⟩
          · exact Or.inl hmem
          · exact Or.inr (Or.inl hr)
        · rcases hoc : fetchGBIFOccurrences api tkc k2 100 true true with ⟨ocr, occa, occc⟩
          cases ocr with
          | nil =>
              simp [processSpecies, hmiss, htk, hoc, hk2] at hmem
              rcases hmem with hmem | ⟨hn, hr⟩
              · exact Or.inl hmem
              · exact Or.inr (Or.inr hr)
          | cons o rest =>
              simp [processSpecies, hmiss, htk, hoc, hk2] at hmem
              exact Or.inl hmem

/-- C7 witness: the outcome theorem applied to the all-transport-error
environment: the null resolution path fires and the failure list gains the
not-found reason. -/
theorem claim_C7_witness :
    processSpecies apiDown true initProcState "Fucus serratus"
      = { initProcState with
          failedSpecies := initProcState.failedSpecies ++
            [("Fucus serratus", reasonNotFound)]
          libCache := (fetchTaxonKey apiDown initProcState.libCache
            "Fucus serratus").cache
          calls := initProcState.calls ++
            (fetchTaxonKey apiDown initProcState.libCache
              "Fucus serratus").calls } :=
  (claim_C7_per_name_outcomes apiDown initProcState "Fucus serratus" rfl).1 rfl

/-! ### Claim C2: a completed null resolution is sticky for fetchTaxonKey,
but matchSpeciesName re-fetches its not-found outcome -/

/-- C2: (i) once fetchTaxonKey completes with result null and the persistent
cache records the authoritative null (which getTaxonKey distinguishes from a
miss via undefined), every subsequent call — under any remote behavior —
returns null again, leaves the cache unchanged and issues no network call;
(ii) matchSpeciesName never stores a null result in speciesMatchCache: after
a completed not-found lookup for a concrete name, a second call issues the
same network call again. -/
theorem claim_C2_sticky_null (api api2 : GBIFApi) (st : CacheState)
    (name : String)
    (h1 : (fetchTaxonKey api st name).result = none)
    (h2 : getTaxonKeyCS (fetchTaxonKey api st name).cache name = some none) :
    (fetchTaxonKey api2 (fetchTaxonKey api st name).cache name
      = ⟨none, (fetchTaxonKey api st name).cache, []⟩)
    ∧ ((matchSpeciesName apiNoMatch 2 [] "Zzzqqq").result = none
       ∧ (matchSpeciesName apiNoMatch 2 [] "Zzzqqq").calls
           = [.matchVerbose "Zzzqqq"]
       ∧ (matchSpeciesName apiNoMatch 2
            (matchSpeciesName apiNoMatch 2 [] "Zzzqqq").cache "Zzzqqq").calls
           = [.matchVerbose "Zzzqqq"]) := by
  have hcommon : alGet commonTaxa name = none := by
    cases hc : alGet commonTaxa name with
    | none => rfl
    | some c =>
        simp [fetchTaxonKey, hc] at h1
  constructor
  · generalize hS : (fetchTaxonKey api st name).cache = S at h2 ⊢
    simp [fetchTaxonKey, hcommon, h2]
  · exact ⟨rfl, rfl, rfl⟩

/-- C2 witness: the sticky-null theorem applied to a completed not-found
resolution against the complete-but-empty environment; the second call is
made against the all-failing environment and still returns the cached null
with zero network calls. -/
theorem claim_C2_witness :
    (fetchTaxonKey apiDown
        (fetchTaxonKey apiNoMatch (freshCache none) "Zzzqqq").cache "Zzzqqq"
      = ⟨none, (fetchTaxonKey apiNoMatch (freshCache none) "Zzzqqq").cache, []⟩)
    ∧ ((matchSpeciesName apiNoMatch 2 [] "Zzzqqq").result = none
       ∧ (matchSpeciesName apiNoMatch 2 [] "Zzzqqq").calls
           = [.matchVerbose "Zzzqqq"]
       ∧ (matchSpeciesName apiNoMatch 2
            (matchSpeciesName apiNoMatch 2 [] "Zzzqqq").cache "Zzzqqq").calls
           = [.matchVerbose "Zzzqqq"]) :=
  claim_C2_sticky_null apiNoMatch apiDown (freshCache none) "Zzzqqq" rfl rfl

/-! ### Claim C4: the coordinate/media filter policy -/

theorem mem_collectPages (hi : Bool) :
    ∀ (ps : List OccPage) (o : GBIFOccurrence), o ∈ collectPages hi ps →
      ∃ r : RawOccurrence, keepOccurrence hi r = true ∧ o = convertOccurrence r
  | [], o, h => by simp [collectPages] at h
  | p :: rest, o, h => by
      cases hres : p.results with
      | none =>
          simp only [collectPages, hres] at h
          simp at h
      | some rs =>
          simp only [collectPages, hres] at h
          by_cases hlen : rs.length = 0
          · rw [if_pos hlen] at h
            simp at h
          · rw [if_neg hlen] at h
            rcases List.mem_append.mp h with h | h
            · rcases List.mem_map.mp h with ⟨r, hr, rfl⟩
              exact ⟨r, (List.mem_filter.mp hr).2, rfl⟩
            · exact mem_collectPages hi rest o h

theorem keepOccurrence_spec (hi : Bool) (r : RawOccurrence)
    (h : keepOccurrence hi r = true) :
    r.decimalLatitude.isSome = true ∧ r.decimalLongitude.isSome = true ∧
    (hi = true → ∃ l, r.media = some l ∧ 0 < l.length) := by
  unfold keepOccurrence at h
  cases hm : r.media with
  | none =>
      rw [hm] at h
      simp at h
      cases hi with
      | false => exact ⟨h.1.1, h.1.2, by intro hfalse; cases hfalse⟩
      | true => simp at h
  | some l =>
      rw [hm] at h
      simp at h
      refine ⟨h.1.1, h.1.2, ?_⟩
      intro hhi
      subst hhi
      rcases h.2 with h2 | h2
      · cases h2
      · exact ⟨l, rfl, h2⟩

theorem convertOccurrence_media (r : RawOccurrence) (m : GBIFMedia)
    (h : m ∈ (convertOccurrence r).media.getD []) : m.type = "StillImage" := by
  unfold convertOccurrence at h
  cases hm : r.media with
  | none =>
      rw [hm] at h
      simp at h
  | some l =>
      rw [hm] at h
      simp only [Option.getD_some] at h
      rcases List.mem_map.mp h with ⟨rm, hrm, rfl⟩
      have hk := (List.mem_filter.mp hrm).2
      unfold mediaKeep at hk
      simp at hk
      unfold convertMedia jsStrOrEmpty
      rw [hk.1]
      rfl

/-- C4 (amended): in the first client variant, every returned record is the
image of a raw record that passed the per-record filter — both coordinates
defined, and (under requireImage) a non-empty raw media array — and all
surviving media entries have type StillImage with an identifier that is a
string (possibly empty).  The second variant maps the raw results verbatim,
with no coordinate or media filtering at all. -/
theorem claim_C4_filter_policy (api : GBIFApi) (st : CacheState)
    (taxonKey limit : Nat) (hc hi : Bool)
    (hmiss : getOccurrencesCS st taxonKey = none) :
    (∀ o ∈ (fetchGBIFOccurrences api st taxonKey limit hc hi).result,
       ∃ r : RawOccurrence,
         keepOccurrence hi r = true ∧ o = convertOccurrence r ∧
         r.decimalLatitude.isSome = true ∧ r.decimalLongitude.isSome = true ∧
         (hi = true → ∃ l, r.media = some l ∧ 0 < l.length) ∧
         (∀ m ∈ o.media.getD [], m.type = "StillImage"))
    ∧ (∀ (rs : List RawOccurrence) (cb : List (Nat × List ServiceB.OccB)),
        api.occSearchB taxonKey limit hc hi = .ok ⟨some rs⟩ →
        taxonKey ≠ 0 → alGet cb taxonKey = none →
        (ServiceB.fetchGBIFOccurrences api cb taxonKey limit hc hi).result
          = rs.map ServiceB.convertRaw) := by
  constructor
  · intro o ho
    unfold fetchGBIFOccurrences at ho
    by_cases h0 : taxonKey = 0
    · rw [if_pos h0] at ho
      simp at ho
    · rw [if_neg h0, hmiss] at ho
      rcases hp : (List.range (pagesToFetchOf limit)).mapM
          (fun page => api.occSearch taxonKey (pageSizeOf limit)
            (page * pageSizeOf limit) hc hi) with e | pages
      · rw [hp] at ho
        simp at ho
      · rw [hp] at ho
        simp only at ho
        have hmem : o ∈ collectPages hi pages :=
          List.mem_of_mem_take ho
        rcases mem_collectPages hi pages o hmem with ⟨r, hkeep, rfl⟩
        rcases keepOccurrence_spec hi r hkeep with ⟨hlat, hlng, hmedia⟩
        exact ⟨r, hkeep, rfl, hlat, hlng, hmedia,
               fun m hm => convertOccurrence_media r m hm⟩
  · intro rs cb hap h0 hcb
    unfold ServiceB.fetchGBIFOccurrences
    rw [if_neg h0, hcb, hap]

/-- A raw record with no coordinates at all. -/
def rawNoCoord : RawOccurrence :=
  ⟨some "k1", some "Ulva lactuca", none, none, none, none⟩

/-- A raw record with coordinates and a StillImage media entry whose
identifier is the empty string. -/
def rawEmptyId : RawOccurrence :=
  ⟨some "k2", some "x", some 1, some 2, none,
   some [⟨some "StillImage", some "", none⟩]⟩

def apiC4 : GBIFApi :=
  { matchVerbose := fun _ => .ok noKeyMatch
    matchFuzzy := fun _ => .ok noKeyMatch
    matchPlain := fun _ => .ok noKeyMatch
    speciesSearch := fun _ => .ok ⟨some []⟩
    occSearch := fun _ _ _ _ _ => .ok ⟨some [rawEmptyId]⟩
    occSearchB := fun _ _ _ _ => .ok ⟨some [rawNoCoord]⟩ }

/-- C4 counterexample: the second fetchGBIFOccurrences variant returns a
record whose decimalLatitude is undefined (no coordinate filtering), and the
first variant keeps a StillImage media entry whose identifier URL is the
empty string (the filter only checks that the identifier is a string) — both
contradicting the claim as stated. -/
theorem claim_C4_counterexample :
    (ServiceB.fetchGBIFOccurrences apiC4 [] 5 50 true false).result
      = [⟨some "k1", some "Ulva lactuca", none, none, none, none⟩] ∧
    (⟨some "k1", some "Ulva lactuca", none, none, none, none⟩ :
        ServiceB.OccB).decimalLatitude = none ∧
    (fetchGBIFOccurrences apiC4 (freshCache none) 7 100 true true).result
      = [⟨"k2", "x", 1, 2, none, some [⟨"StillImage", "", none⟩]⟩] :=
  ⟨rfl, rfl, rfl⟩

/-- C4 witness: the second-variant conjunct of the filter-policy theorem at a
concrete environment — the raw list is mapped verbatim. -/
theorem claim_C4_witness :
    (ServiceB.fetchGBIFOccurrences apiC4 [] 7 100 true true).result
      = [rawNoCoord].map ServiceB.convertRaw :=
  (claim_C4_filter_policy apiC4 (freshCache none) 7 100 true true rfl).2
    [rawNoCoord] [] rfl (by decide) rfl

/-! ### Claim C5: the fuzzy fallback trigger and confidence cap -/

theorem simplifiedProbe_nil (n : String) : simplifiedProbe [] n = none := by
  unfold simplifiedProbe
  split
  · split
    · rfl
    · rfl
  · rfl

/-- Reduction of matchSpeciesName for a name the synonym table leaves
unchanged. -/
theorem matchSpeciesName_no_syn (api : GBIFApi) (f : Nat)
    (cache : List (String × GBIFSpeciesMatch)) (name : String)
    (hsyn : resolveSynonym name = name) (hne : name ≠ "") :
    matchSpeciesName api (f + 1) cache name =
      match alGet commonTaxa (jsTrim name) with
      | some c =>
          ⟨some (commonMatchData (jsTrim name) c),
           alSet cache (jsLower (jsTrim name)) (commonMatchData (jsTrim name) c),
           []⟩
      | none =>
        match alGet cache (jsLower (jsTrim name)) with
        | some m => ⟨some m, cache, []⟩
        | none => matchTail api cache (jsLower (jsTrim name)) (jsTrim name) [] := by
  conv_lhs => rw [matchSpeciesName]
  rw [if_neg hne, hsyn]
  simp

def fuzzyHit : GBIFSpeciesMatch :=
  ⟨some 5, "Zzyx", "Zzyx", "", "", "SPECIES", "ACCEPTED", "FUZZY", 97, false, 0, 0⟩

def api5 : GBIFApi :=
  { matchVerbose := fun _ => .ok noKeyMatch
    matchFuzzy := fun _ => .ok fuzzyHit
    matchPlain := fun _ => .ok noKeyMatch
    speciesSearch := fun _ => .ok ⟨some []⟩
    occSearch := fun _ _ _ _ _ => .ok ⟨some []⟩
    occSearchB := fun _ _ _ _ => .ok ⟨some []⟩ }

/-- C5 counterexample: a two-token name (fewer than the three tokens the
claim requires) still triggers the fuzzy retry — which re-queries the very
same genus+epithet string — and a hit from this path is capped at 80. -/
theorem claim_C5_counterexample :
    (jsSplit (jsTrim "Zzyx abc")).length = 2 ∧
    (matchSpeciesName api5 2 [] "Zzyx abc").calls
      = [.matchVerbose "Zzyx abc", .matchFuzzy "Zzyx abc"] ∧
    (matchSpeciesName api5 2 [] "Zzyx abc").result
      = some { fuzzyHit with confidence := 80 } :=
  ⟨rfl, rfl, rfl⟩

/-- C5 (amended): for an empty cache and a name without synonym substitution
that misses the fast path, when the exact network match completes without a
usageKey the fuzzy retry is attempted exactly when the name contains a space
(two tokens suffice), it queries the first two tokens, and any hit obtained
from it has its confidence capped via min(confidence, 80). -/
theorem claim_C5_fuzzy_policy (api : GBIFApi) (name : String)
    (d : GBIFSpeciesMatch) (f : Nat)
    (hsyn : resolveSynonym name = name)
    (htrim : jsTrim name = name)
    (hne : name ≠ "")
    (hcommon : alGet commonTaxa name = none)
    (hx : api.matchVerbose name = .ok d)
    (hd : truthyKey d.usageKey = false) :
    ((matchSpeciesName api (f + 2) [] name).calls
      = if jsContainsSpace name then
          [.matchVerbose name, .matchFuzzy (simpleNameOf name)]
        else [.matchVerbose name])
    ∧ (∀ fz, api.matchFuzzy (simpleNameOf name) = .ok fz →
        truthyKey fz.usageKey = true → jsContainsSpace name = true →
        (matchSpeciesName api (f + 2) [] name).result
          = some { fz with confidence := min fz.confidence 80 }) := by
  have hred := matchSpeciesName_no_syn api (f + 1) [] name hsyn hne
  rw [htrim] at hred
  rw [hcommon] at hred
  rw [alGet_nil] at hred
  constructor
  · rw [hred]
    unfold matchTail
    rw [simplifiedProbe_nil, hx]
    cases hsp : jsContainsSpace name with
    | false => simp [hd, hsp]
    | true =>
        cases hfz : api.matchFuzzy (simpleNameOf name) with
        | error e => simp [hd, hsp, hfz]
        | ok fz =>
            cases htf : truthyKey fz.usageKey with
            | false => simp [hd, hsp, hfz, htf]
            | true => simp [hd, hsp, hfz, htf]
  · intro fz hfz htf hsp
    rw [hred]
    unfold matchTail
    rw [simplifiedProbe_nil, hx]
    simp [hd, hsp, hfz, htf]

/-- C5 witness: the fuzzy-policy theorem applied to the concrete two-token
name and environment of the counterexample. -/
theorem claim_C5_witness :
    (matchSpeciesName api5 (0 + 2) [] "Zzyx abc").result
      = some { fuzzyHit with confidence := min fuzzyHit.confidence 80 } :=
  (claim_C5_fuzzy_policy api5 "Zzyx abc" noKeyMatch 0 rfl rfl (by decide)
      rfl rfl rfl).2 fuzzyHit rfl rfl rfl

/-! ### Claim C6: synonym consistency -/

theorem matchTail_cache_on_some (api : GBIFApi)
    (cache : List (String × GBIFSpeciesMatch)) (ck nn : String)
    (cs : List ApiCall) (m : GBIFSpeciesMatch)
    (h : (matchTail api cache ck nn cs).result = some m) :
    (matchTail api cache ck nn cs).cache = alSet cache ck m := by
  cases hpr : simplifiedProbe cache nn with
  | some m2 =>
      simp only [matchTail, hpr] at h ⊢
      cases h
      rfl
  | none =>
      cases hmv : api.matchVerbose nn with
      | error e =>
          simp only [matchTail, hpr, hmv] at h
          exact Option.noConfusion h
      | ok d =>
          cases htd : truthyKey d.usageKey with
          | true =>
              simp only [matchTail, hpr, hmv, htd, if_true] at h ⊢
              cases h
              rfl
          | false =>
              cases hsp : jsContainsSpace nn with
              | false =>
                  simp only [matchTail, hpr, hmv, htd, hsp, Bool.false_eq_true,
                    if_false] at h
                  exact Option.noConfusion h
              | true =>
                  cases hfz : api.matchFuzzy (simpleNameOf nn) with
                  | error e =>
                      simp only [matchTail, hpr, hmv, htd, hsp, hfz,
                        Bool.false_eq_true, if_false, if_true] at h
                      exact Option.noConfusion h
                  | ok fz =>
                      cases htf : truthyKey fz.usageKey with
                      | true =>
                          simp only [matchTail, hpr, hmv, htd, hsp, hfz, htf,
                            Bool.false_eq_true, if_false, if_true] at h ⊢
                          cases h
                          rfl
                      | false =>
                          simp only [matchTail, hpr, hmv, htd, hsp, hfz, htf,
                            Bool.false_eq_true, if_false, if_true] at h
                          exact Option.noConfusion h

theorem matchTail_cache_on_none (api : GBIFApi)
    (cache : List (String × GBIFSpeciesMatch)) (ck nn : String)
    (cs : List ApiCall)
    (h : (matchTail api cache ck nn cs).result = none) :
    (matchTail api cache ck nn cs).cache = cache := by
  cases hpr : simplifiedProbe cache nn with
  | some m2 =>
      simp only [matchTail, hpr] at h
      exact Option.noConfusion h
  | none =>
      cases hmv : api.matchVerbose nn with
      | error e => simp only [matchTail, hpr, hmv] at h ⊢
      | ok d =>
          cases htd : truthyKey d.usageKey with
          | true =>
              simp only [matchTail, hpr, hmv, htd, if_true] at h
              exact Option.noConfusion h
          | false =>
              cases hsp : jsContainsSpace nn with
              | false =>
                  simp only [matchTail, hpr, hmv, htd, hsp, Bool.false_eq_true,
                    if_false] at h ⊢
              | true =>
                  cases hfz : api.matchFuzzy (simpleNameOf nn) with
                  | error e =>
                      simp only [matchTail, hpr, hmv, htd, hsp, hfz,
                        Bool.false_eq_true, if_false, if_true] at h ⊢
                  | ok fz =>
                      cases htf : truthyKey fz.usageKey with
                      | true =>
                          simp only [matchTail, hpr, hmv, htd, hsp, hfz, htf,
                            Bool.false_eq_true, if_false, if_true] at h
                          exact Option.noConfusion h
                      | false =>
                          simp only [matchTail, hpr, hmv, htd, hsp, hfz, htf,
                            Bool.false_eq_true, if_false, if_true] at h ⊢

/-- The returned value of the tail does not depend on the cache key under
which a hit would be stored, nor on the accumulated call list. -/
theorem matchTail_result_congr (api : GBIFApi)
    (cache : List (String × GBIFSpeciesMatch)) (ck1 ck2 nn : String)
    (cs1 cs2 : List ApiCall) :
    (matchTail api cache ck1 nn cs1).result
      = (matchTail api cache ck2 nn cs2).result := by
  cases hpr : simplifiedProbe cache nn with
  | some m2 => simp only [matchTail, hpr]
  | none =>
      cases hmv : api.matchVerbose nn with
      | error e => simp only [matchTail, hpr, hmv]
      | ok d =>
          cases htd : truthyKey d.usageKey with
          | true => simp only [matchTail, hpr, hmv, htd, if_true]
          | false =>
              cases hsp : jsContainsSpace nn with
              | false =>
                  simp only [matchTail, hpr, hmv, htd, hsp, Bool.false_eq_true,
                    if_false]
              | true =>
                  cases hfz : api.matchFuzzy (simpleNameOf nn) with
                  | error e =>
                      simp only [matchTail, hpr, hmv, htd, hsp, hfz,
                        Bool.false_eq_true, if_false, if_true]
                  | ok fz =>
                      cases htf : truthyKey fz.usageKey with
                      | true =>
                          simp only [matchTail, hpr, hmv, htd, hsp, hfz, htf,
                            Bool.false_eq_true, if_false, if_true]
                      | false =>
                          simp only [matchTail, hpr, hmv, htd, hsp, hfz, htf,
                            Bool.false_eq_true, if_false, if_true]

/-- A successful matchSpeciesName call always leaves its result cached under
the original name (lowercased, trimmed). -/
theorem match_cache_on_some (api : GBIFApi) (fuel : Nat)
    (cache : List (String × GBIFSpeciesMatch)) (name : String)
    (m : GBIFSpeciesMatch)
    (h : (matchSpeciesName api fuel cache name).result = some m) :
    alGet (matchSpeciesName api fuel cache name).cache (jsLower (jsTrim name))
      = some m := by
  cases fuel with
  | zero => exact Option.noConfusion h
  | succ fuel =>
      by_cases hne : name = ""
      · subst hne
        simp only [matchSpeciesName, if_pos rfl] at h
        exact Option.noConfusion h
      · simp only [matchSpeciesName, if_neg hne] at h ⊢
        cases hcom : alGet commonTaxa (jsTrim (resolveSynonym name)) with
        | some c =>
            rw [hcom] at h
            simp only at h ⊢
            cases h
            exact alGet_alSet_self _ _ _
        | none =>
            rw [hcom] at h
            cases hck : alGet cache (jsLower (jsTrim name)) with
            | some m0 =>
                rw [hck] at h
                simp only at h ⊢
                cases h
                exact hck
            | none =>
                rw [hck] at h
                by_cases hrs : resolveSynonym name = name
                · rw [if_neg (fun hc => hc hrs)] at h ⊢
                  rw [matchTail_cache_on_some api cache _ _ _ m h]
                  exact alGet_alSet_self _ _ _
                · rw [if_pos hrs] at h ⊢
                  rcases hr : matchSpeciesName api fuel cache (resolveSynonym name)
                    with ⟨res, c2, cs⟩
                  rw [hr] at h
                  cases res with
                  | some m2 =>
                      simp only at h ⊢
                      cases h
                      exact alGet_alSet_self _ _ _
                  | none =>
                      simp only at h ⊢
                      rw [matchTail_cache_on_some api c2 _ _ _ m h]
                      exact alGet_alSet_self _ _ _

/-- A failed matchSpeciesName call leaves the cache unchanged. -/
theorem match_cache_on_none (api : GBIFApi) :
    ∀ (fuel : Nat) (cache : List (String × GBIFSpeciesMatch)) (name : String),
      (matchSpeciesName api fuel cache name).result = none →
      (matchSpeciesName api fuel cache name).cache = cache
  | 0, cache, name, _ => rfl
  | fuel + 1, cache, name, h => by
      by_cases hne : name = ""
      · simp only [matchSpeciesName, if_pos hne]
      · simp only [matchSpeciesName, if_neg hne] at h ⊢
        cases hcom : alGet commonTaxa (jsTrim (resolveSynonym name)) with
        | some c =>
            rw [hcom] at h
            exact Option.noConfusion h
        | none =>
            rw [hcom] at h
            cases hck : alGet cache (jsLower (jsTrim name)) with
            | some m0 =>
                rw [hck] at h
            | none =>
                rw [hck] at h
                by_cases hrs : resolveSynonym name = name
                · rw [if_neg (fun hc => hc hrs)] at h ⊢
                  exact matchTail_cache_on_none _ _ _ _ _ h
                · rw [if_pos hrs] at h ⊢
                  rcases hr : matchSpeciesName api fuel cache (resolveSynonym name)
                    with ⟨res, c2, cs⟩
                  rw [hr] at h
                  cases res with
                  | some m2 =>
                      simp only at h
                      exact Option.noConfusion h
                  | none =>
                      simp only at h ⊢
                      have hres : (matchSpeciesName api fuel cache
                          (resolveSynonym name)).result = none := by
                        rw [hr]
                      have hc2 := match_cache_on_none api fuel cache
                        (resolveSynonym name) hres
                      rw [hr] at hc2
                      simp only at hc2
                      subst hc2
                      exact matchTail_cache_on_none _ _ _ _ _ h

/-- Reduction of matchSpeciesName when the (synonym-resolved, trimmed) name
hits the COMMON_TAXA fast path. -/
theorem matchSpeciesName_common (api : GBIFApi) (f : Nat)
    (cache : List (String × GBIFSpeciesMatch)) (name : String) (c : CommonTaxon)
    (hne : name ≠ "")
    (hc : alGet commonTaxa (jsTrim (resolveSynonym name)) = some c) :
    matchSpeciesName api (f + 1) cache name =
      ⟨some (commonMatchData (jsTrim (resolveSynonym name)) c),
       alSet cache (jsLower (jsTrim name))
         (commonMatchData (jsTrim (resolveSynonym name)) c), []⟩ := by
  conv_lhs => rw [matchSpeciesName]
  rw [if_neg hne, hc]

/-- Reduction of matchSpeciesName for a name the synonym table maps to a
different accepted name missing the fast path, on a cache with no entry for
the original name. -/
theorem matchSpeciesName_syn_red (api : GBIFApi) (f : Nat)
    (cache : List (String × GBIFSpeciesMatch)) (k t : String)
    (hsynK : resolveSynonym k = t) (hkne : k ≠ "") (hne2 : t ≠ k)
    (hcm : alGet commonTaxa (jsTrim t) = none)
    (hck : alGet cache (jsLower (jsTrim k)) = none) :
    matchSpeciesName api (f + 1) cache k =
      match matchSpeciesName api f cache t with
      | ⟨some m, c2, cs⟩ => ⟨some m, alSet c2 (jsLower (jsTrim k)) m, cs⟩
      | ⟨none, c2, cs⟩ => matchTail api c2 (jsLower (jsTrim k)) (jsTrim t) cs := by
  conv_lhs => rw [matchSpeciesName]
  rw [if_neg hkne, hsynK, hcm, hck, if_pos hne2]

/-- Sanity of the synonym table: every target is itself a fixed point of
resolveSynonym, already trimmed and non-empty, and every key is trimmed and
non-empty.  This is what bounds the source recursion depth at 2. -/
def synTableOK : Bool :=
  taxonomicSynonyms.all (fun p =>
    decide (resolveSynonym p.2 = p.2) && decide (jsTrim p.2 = p.2) &&
    decide (jsTrim p.1 = p.1) && !(decide (p.1 = "")) && !(decide (p.2 = "")))

set_option maxHeartbeats 1000000 in
theorem synTableOK_true : synTableOK = true := by decide

/-- C6 counterexample: for the synonym key Enteromorpha sp. and an
environment in which the target resolves to nothing, resolution returns null
and the cache holds no entry for the original name afterwards — the claim
that the cache always holds an entry for the original name after resolution
fails for null resolutions (the match cache never stores null). -/
theorem claim_C6_counterexample :
    alGet taxonomicSynonyms "Enteromorpha sp." = some "Ulva intestinalis" ∧
    (matchSpeciesName apiNoMatch 2 [] "Enteromorpha sp.").result = none ∧
    alGet (matchSpeciesName apiNoMatch 2 [] "Enteromorpha sp.").cache
      (jsLower (jsTrim "Enteromorpha sp.")) = none :=
  ⟨rfl, rfl, rfl⟩

/-- C6 (amended): for every key of the synonym table, resolving the key and
resolving its target directly (same environment, fresh cache) return the same
match result; and whenever resolution of the key succeeds, the cache holds
that result under the original (trimmed, lowercased) key. -/
theorem claim_C6_synonym_consistency (api : GBIFApi) (f : Nat) (k t : String)
    (hkt : alGet taxonomicSynonyms k = some t) :
    (matchSpeciesName api (f + 2) [] k).result
      = (matchSpeciesName api (f + 2) [] t).result
    ∧ (∀ m, (matchSpeciesName api (f + 2) [] k).result = some m →
        alGet (matchSpeciesName api (f + 2) [] k).cache (jsLower (jsTrim k))
          = some m) := by
  refine ⟨?_, fun m h => match_cache_on_some api (f + 2) [] k m h⟩
  -- membership of the pair in the table
  have hfind := hkt
  unfold alGet at hfind
  rcases hmap : taxonomicSynonyms.find? (fun p => decide (p.fst = k))
    with _ | p
  · rw [hmap] at hfind
    exact Option.noConfusion hfind
  · rw [hmap] at hfind
    simp at hfind
    rcases p with ⟨p1, p2⟩
    have hpk : p1 = k := by
      have := List.find?_some hmap
      simpa using this
    have hpt : p2 = t := by simpa using hfind
    have hmem : (k, t) ∈ taxonomicSynonyms := by
      have h1 := List.mem_of_find?_eq_some hmap
      rw [hpk, hpt] at h1
      exact h1
    -- table sanity facts for this entry
    have hfacts := List.all_eq_true.mp synTableOK_true (k, t) hmem
    simp only [Bool.and_eq_true, decide_eq_true_eq, Bool.not_eq_true',
      decide_eq_false_iff_not] at hfacts
    obtain ⟨⟨⟨⟨hsynT, htrimT⟩, htrimK⟩, hkne⟩, htne⟩ := hfacts
    have hsynK : resolveSynonym k = t := by
      unfold resolveSynonym
      rw [htrimK, hkt]
      rfl
    by_cases hkeq : k = t
    · rw [hkeq]
    · have hf2 : f + 2 = f + 1 + 1 := rfl
      rw [hf2]
      cases hct : alGet commonTaxa t with
      | some c =>
          have hcK : alGet commonTaxa (jsTrim (resolveSynonym k)) = some c := by
            rw [hsynK, htrimT, hct]
          have hcT : alGet commonTaxa (jsTrim (resolveSynonym t)) = some c := by
            rw [hsynT, htrimT, hct]
          rw [matchSpeciesName_common api (f + 1) [] k c hkne hcK,
              matchSpeciesName_common api (f + 1) [] t c htne hcT]
          simp [hsynK, hsynT, htrimT]
      | none =>
          have hcmT : alGet commonTaxa (jsTrim t) = none := by
            rw [htrimT]
            exact hct
          have hredK := matchSpeciesName_syn_red api (f + 1) [] k t hsynK hkne
            (fun h => hkeq h.symm) hcmT (alGet_nil _)
          have hredT := matchSpeciesName_no_syn api (f + 1) [] t hsynT htne
          have hredT1 := matchSpeciesName_no_syn api f [] t hsynT htne
          rw [hcmT, alGet_nil] at hredT hredT1
          simp only at hredT hredT1
          rw [hredK, hredT]
          rcases hr : matchTail api [] (jsLower (jsTrim t)) (jsTrim t) []
            with ⟨res, c2, cs⟩
          rw [hr] at hredT1
          rw [hredT1]
          cases res with
          | some m => simp only
          | none =>
              simp only
              have hres0 : (matchTail api [] (jsLower (jsTrim t))
                  (jsTrim t) []).result = none := by
                rw [hr]
              have hc2 := matchTail_cache_on_none api [] (jsLower (jsTrim t))
                (jsTrim t) [] hres0
              rw [hr] at hc2
              simp only at hc2
              subst hc2
              rw [matchTail_result_congr api [] (jsLower (jsTrim k))
                (jsLower (jsTrim t)) (jsTrim t) cs []]
              rw [hr]

/-- C6 witness: the synonym-consistency theorem applied to the concrete key
Fucus sp. (target Fucus vesiculosus) in the complete-but-empty environment. -/
theorem claim_C6_witness :
    (matchSpeciesName apiNoMatch (0 + 2) [] "Fucus sp.").result
      = (matchSpeciesName apiNoMatch (0 + 2) [] "Fucus vesiculosus").result :=
  (claim_C6_synonym_consistency apiNoMatch 0 "Fucus sp." "Fucus vesiculosus"
    rfl).1
